import Mathlib

/-!
Verification of the SAMDEMO telemetry relay (`src/dashboard/server.py`)
against its natural-language specification.

The Python program is shallowly embedded below: every relay operation the
spec talks about (the frame codec `process_message`, the broadcaster
`broadcast_to_browsers`, the first-message connection classifier inside
`ws_handler`, the serial reader with its demo fallback, the demo data
generator, and the registry of browser connections) is translated into an
executable Lean definition.  Python dictionaries decoded from JSON are
modelled as insertion-ordered association lists with unique keys, JSON
numbers as rationals, wall-clock readings (`time.time()`) as a rational
parameter `now`, and the random draws of `random.gauss` together with
`math.sin` / `math.cos` as oracle functions supplied to the definitions.
-/

namespace SAMDEMO

/-- JSON values as produced by Python's `json.loads`: null, booleans,
finite numbers (modelled as rationals; the embedding does not
distinguish int from float), the three non-finite float literals
`NaN` / `Infinity` / `-Infinity` that `json.loads` also accepts by
default (carried as dedicated constructors, since they have no rational
value), strings, arrays, and objects.  Objects are insertion-ordered
association lists with unique keys, mirroring Python dicts. -/
inductive JValue : Type where
  | null : JValue
  | bool (b : Bool) : JValue
  | num (q : ℚ) : JValue
  | nan : JValue
  | inf : JValue
  | neginf : JValue
  | str (s : String) : JValue
  | arr (xs : List JValue) : JValue
  | obj (fields : List (String × JValue)) : JValue

/-- A decoded Python dict: insertion-ordered association list. -/
abbrev Dict : Type := List (String × JValue)

/-- Lookup in a dict (Python `d.get(k)` / `d[k]` on a present key). -/
def dGet : Dict → String → Option JValue
  | [], _ => none
  | (k', v) :: rest, k => if k' = k then some v else dGet rest k

/-- Python `k in d` for a dict. -/
def dContains (d : Dict) (k : String) : Bool :=
  (dGet d k).isSome

/-- Python `d[k] = v`: replace the value in place if the key is present
(keeping the original position, as Python dicts do), else append. -/
def dSet : Dict → String → JValue → Dict
  | [], k, v => [(k, v)]
  | (k', v') :: rest, k, v =>
      if k' = k then (k, v) :: rest else (k', v') :: dSet rest k v

/-- Python `d.setdefault(k, v)`: append `(k, v)` only when absent. -/
def dSetdefault (d : Dict) (k : String) (v : JValue) : Dict :=
  if dContains d k then d else d ++ [(k, v)]

/-- The characters stripped by Python's `str.strip()` (ASCII whitespace;
the embedding omits the non-ASCII Unicode spaces, which never occur in
the inputs considered here). -/
def isPyWs (c : Char) : Bool :=
  c = ' ' || c = '\t' || c = '\n' || c = '\r' || c = '\x0b' || c = '\x0c'

/-- Python `str.strip()`. -/
def pyStrip (s : String) : String :=
  ⟨((s.data.dropWhile isPyWs).reverse.dropWhile isPyWs).reverse⟩

/-- List-level prefix test used by the substring test below. -/
def listPfx : List Char → List Char → Bool
  | [], _ => true
  | _ :: _, [] => false
  | a :: as, b :: bs => a = b && listPfx as bs

/-- List-level substring occurrence test. -/
def listSub (n : List Char) : List Char → Bool
  | [] => n.isEmpty
  | c :: rest => listPfx n (c :: rest) || listSub n rest

/-- Python `needle in hay` for strings (substring containment). -/
def pyIn (needle hay : String) : Bool :=
  listSub needle.data hay.data

/-- The Unicode replacement character U+FFFD. -/
def replChar : Char := Char.ofNat 0xFFFD

/-- Is `b` a UTF-8 continuation byte (0x80..0xBF)? -/
def contByte (b : ℕ) : Bool := 128 ≤ b && b ≤ 191

/-- Valid second byte of a three-byte UTF-8 sequence with lead `b1`
(excluding overlong encodings and surrogates, as CPython does). -/
def cont3 (b1 b2 : ℕ) : Bool :=
  if b1 = 224 then 160 ≤ b2 && b2 ≤ 191
  else if b1 = 237 then 128 ≤ b2 && b2 ≤ 159
  else contByte b2

/-- Valid second byte of a four-byte UTF-8 sequence with lead `b1`
(excluding overlong encodings and code points above U+10FFFF). -/
def cont4 (b1 b2 : ℕ) : Bool :=
  if b1 = 240 then 144 ≤ b2 && b2 ≤ 191
  else if b1 = 244 then 128 ≤ b2 && b2 ≤ 143
  else contByte b2

/-- Python `bytes.decode("utf-8", errors="replace")`: total UTF-8
decoding where every invalid byte yields U+FFFD instead of an error.
On an invalid or truncated sequence one byte is consumed per replacement
character (CPython's maximal-subpart policy can consume a valid two- or
three-byte prefix for a single replacement; the difference only affects
how many replacement characters appear, never whether decoding
succeeds). -/
def decodeUtf8ReplaceAux : ℕ → List ℕ → List Char
  | 0, _ => []
  | _, [] => []
  | fuel + 1, b :: rest =>
    if b < 128 then Char.ofNat b :: decodeUtf8ReplaceAux fuel rest
    else if 194 ≤ b ∧ b ≤ 223 then
      match rest with
      | b2 :: rest2 =>
        if contByte b2 then
          Char.ofNat ((b - 192) * 64 + (b2 - 128)) :: decodeUtf8ReplaceAux fuel rest2
        else replChar :: decodeUtf8ReplaceAux fuel (b2 :: rest2)
      | [] => [replChar]
    else if 224 ≤ b ∧ b ≤ 239 then
      match rest with
      | b2 :: b3 :: rest3 =>
        if cont3 b b2 && contByte b3 then
          Char.ofNat ((b - 224) * 4096 + (b2 - 128) * 64 + (b3 - 128)) ::
            decodeUtf8ReplaceAux fuel rest3
        else replChar :: decodeUtf8ReplaceAux fuel (b2 :: b3 :: rest3)
      | [b2] => replChar :: decodeUtf8ReplaceAux fuel [b2]
      | [] => [replChar]
    else if 240 ≤ b ∧ b ≤ 244 then
      match rest with
      | b2 :: b3 :: b4 :: rest4 =>
        if cont4 b b2 && contByte b3 && contByte b4 then
          Char.ofNat
              ((b - 240) * 262144 + (b2 - 128) * 4096 + (b3 - 128) * 64 +
                (b4 - 128)) ::
            decodeUtf8ReplaceAux fuel rest4
        else replChar :: decodeUtf8ReplaceAux fuel (b2 :: b3 :: b4 :: rest4)
      | [b2, b3] => replChar :: decodeUtf8ReplaceAux fuel [b2, b3]
      | [b2] => replChar :: decodeUtf8ReplaceAux fuel [b2]
      | [] => [replChar]
    else replChar :: decodeUtf8ReplaceAux fuel rest

/-- Entry point of the decoding: the fuel bound is the byte count, and
every step consumes at least one byte. -/
def decodeUtf8Replace (bs : List ℕ) : List Char :=
  decodeUtf8ReplaceAux bs.length bs

/-- The opening-brace character, written via its code point. -/
def lbrace : Char := Char.ofNat 123

/-- The closing-brace character, written via its code point. -/
def rbrace : Char := Char.ofNat 125

/-- JSON insignificant whitespace (RFC 8259, as accepted by
Python's `json.loads`): space, tab, line feed, carriage return. -/
def isJsonWs (c : Char) : Bool :=
  c = ' ' || c = '\t' || c = '\n' || c = '\r'

/-- Skip leading JSON whitespace. -/
def skipWs : List Char → List Char
  | [] => []
  | c :: cs => if isJsonWs c then skipWs cs else c :: cs

/-- Value of a hexadecimal digit, if any. -/
def hexVal (c : Char) : Option ℕ :=
  if '0' ≤ c ∧ c ≤ '9' then some (c.toNat - 48)
  else if 'a' ≤ c ∧ c ≤ 'f' then some (c.toNat - 87)
  else if 'A' ≤ c ∧ c ≤ 'F' then some (c.toNat - 55)
  else none

/-- Body of a JSON string literal, the opening quote already consumed:
returns the decoded string and the input after the closing quote.
Escapes are as in `json.loads` (strict mode: unescaped control
characters are rejected); a `\uXXXX` escape becomes the code point
`XXXX` (the embedding does not recombine surrogate pairs, which never
occur in the inputs considered here). -/
def parseJStringAux : List Char → List Char → Option (String × List Char)
  | acc, '"' :: rest => some (⟨acc.reverse⟩, rest)
  | acc, '\\' :: 'u' :: a :: b :: c :: d :: rest =>
    (match hexVal a, hexVal b, hexVal c, hexVal d with
     | some x1, some x2, some x3, some x4 =>
         parseJStringAux (Char.ofNat (x1 * 4096 + x2 * 256 + x3 * 16 + x4) :: acc) rest
     | _, _, _, _ => none)
  | acc, '\\' :: e :: rest =>
    if e = '"' then parseJStringAux ('"' :: acc) rest
    else if e = '\\' then parseJStringAux ('\\' :: acc) rest
    else if e = '/' then parseJStringAux ('/' :: acc) rest
    else if e = 'b' then parseJStringAux ('\x08' :: acc) rest
    else if e = 'f' then parseJStringAux ('\x0c' :: acc) rest
    else if e = 'n' then parseJStringAux ('\n' :: acc) rest
    else if e = 'r' then parseJStringAux ('\r' :: acc) rest
    else if e = 't' then parseJStringAux ('\t' :: acc) rest
    else none
  | acc, c :: rest =>
    if c.toNat < 32 then none else parseJStringAux (c :: acc) rest
  | _, [] => none

/-- Numeric value of a digit string. -/
def digitsVal (ds : List Char) : ℕ :=
  ds.foldl (fun n c => n * 10 + (c.toNat - 48)) 0

/-- Powers of ten, written recursively so that parsed numbers reduce to
rational literals definitionally. -/
def pow10 : ℕ → ℕ
  | 0 => 1
  | n + 1 => 10 * pow10 n

/-- Assemble a JSON number from sign, integer digits, fraction digits
and (signed) decimal exponent: the exact rational
`±(integer.fraction) · 10^(±exponent)`. -/
def mkNum (neg : Bool) (iv : ℕ) (fds : List Char) (esign : Bool) (ev : ℕ) : ℚ :=
  let mant : ℤ := (iv : ℤ) * (pow10 fds.length : ℤ) + (digitsVal fds : ℤ)
  let mant := if neg then -mant else mant
  if esign then mkRat mant (pow10 fds.length * pow10 ev)
  else mkRat (mant * (pow10 ev : ℤ)) (pow10 fds.length)

/-- Optional exponent part of a JSON number (the integer and fraction
already parsed). -/
def parseExpPart (neg : Bool) (iv : ℕ) (fds : List Char) :
    List Char → Option (ℚ × List Char)
  | e :: r =>
    if e = 'e' || e = 'E' then
      let (esign, r1) :=
        match r with
        | '-' :: rr => (true, rr)
        | '+' :: rr => (false, rr)
        | _ => (false, r)
      let (eds, r2) := r1.span Char.isDigit
      if eds.isEmpty then none else some (mkNum neg iv fds esign (digitsVal eds), r2)
    else some (mkNum neg iv fds false 0, e :: r)
  | [] => some (mkNum neg iv fds false 0, [])

/-- A JSON number per the RFC 8259 grammar (optional minus, integer part
without redundant leading zeros, optional fraction, optional
exponent). -/
def parseNumber (cs : List Char) : Option (ℚ × List Char) :=
  let (neg, cs1) :=
    match cs with
    | '-' :: rest => (true, rest)
    | _ => (false, cs)
  match cs1 with
  | c :: rest =>
    if ¬ c.isDigit then none
    else
      let (ids, cs2) := if c = '0' then ([c], rest) else (c :: rest).span Char.isDigit
      let iv := digitsVal ids
      match cs2 with
      | '.' :: r =>
        let (fds, cs3) := r.span Char.isDigit
        if fds.isEmpty then none else parseExpPart neg iv fds cs3
      | _ => parseExpPart neg iv [] cs2
  | [] => none

mutual

/-- One JSON value, fuel-bounded recursive descent mirroring
`json.loads`, including the non-standard `NaN` / `Infinity` /
`-Infinity` constants its scanner accepts by default: returns the value
and the unconsumed input. -/
def parseValue : ℕ → List Char → Option (JValue × List Char)
  | 0, _ => none
  | fuel + 1, cs =>
    match skipWs cs with
    | [] => none
    | c :: rest =>
      if c = 'n' then
        match rest with
        | 'u' :: 'l' :: 'l' :: r => some (.null, r)
        | _ => none
      else if c = 't' then
        match rest with
        | 'r' :: 'u' :: 'e' :: r => some (.bool true, r)
        | _ => none
      else if c = 'f' then
        match rest with
        | 'a' :: 'l' :: 's' :: 'e' :: r => some (.bool false, r)
        | _ => none
      else if c = 'N' then
        match rest with
        | 'a' :: 'N' :: r => some (.nan, r)
        | _ => none
      else if c = 'I' then
        match rest with
        | 'n' :: 'f' :: 'i' :: 'n' :: 'i' :: 't' :: 'y' :: r => some (.inf, r)
        | _ => none
      else if c = '"' then
        match parseJStringAux [] rest with
        | some (s, r) => some (.str s, r)
        | none => none
      else if c = '[' then
        match skipWs rest with
        | c2 :: r2 =>
          if c2 = ']' then some (.arr [], r2)
          else
            match parseElems fuel rest [] with
            | some (vs, r) => some (.arr vs, r)
            | none => none
        | [] => none
      else if c = lbrace then
        match skipWs rest with
        | c2 :: r2 =>
          if c2 = rbrace then some (.obj [], r2)
          else
            match parseFields fuel rest [] with
            | some (d, r) => some (.obj d, r)
            | none => none
        | [] => none
      else if c = '-' then
        match rest with
        | 'I' :: 'n' :: 'f' :: 'i' :: 'n' :: 'i' :: 't' :: 'y' :: r =>
          some (.neginf, r)
        | _ =>
          match parseNumber (c :: rest) with
          | some (q, r) => some (.num q, r)
          | none => none
      else if c.isDigit then
        match parseNumber (c :: rest) with
        | some (q, r) => some (.num q, r)
        | none => none
      else none

/-- Comma-separated array elements, up to and including the closing
bracket. -/
def parseElems : ℕ → List Char → List JValue → Option (List JValue × List Char)
  | 0, _, _ => none
  | fuel + 1, cs, acc =>
    match parseValue fuel cs with
    | some (v, r) =>
      match skipWs r with
      | c2 :: r2 =>
        if c2 = ',' then parseElems fuel r2 (acc ++ [v])
        else if c2 = ']' then some (acc ++ [v], r2)
        else none
      | [] => none
    | none => none

/-- Comma-separated object members, up to and including the closing
brace.  Members are accumulated with `dSet`, so a duplicated key keeps
its first position and its last value, exactly as for a Python dict. -/
def parseFields : ℕ → List Char → Dict → Option (Dict × List Char)
  | 0, _, _ => none
  | fuel + 1, cs, acc =>
    match skipWs cs with
    | c :: r =>
      if c = '"' then
        match parseJStringAux [] r with
        | some (k, r1) =>
          match skipWs r1 with
          | ':' :: r2 =>
            match parseValue fuel r2 with
            | some (v, r3) =>
              match skipWs r3 with
              | c4 :: r4 =>
                if c4 = ',' then parseFields fuel r4 (dSet acc k v)
                else if c4 = rbrace then some (dSet acc k v, r4)
                else none
              | [] => none
            | none => none
          | _ => none
        | none => none
      else none
    | [] => none

end

/-- Python `json.loads`: parse one JSON document, requiring the whole
input (up to trailing whitespace) to be consumed; `none` models
`json.JSONDecodeError`. -/
def jsonParse (s : String) : Option JValue :=
  match parseValue (3 * s.data.length + 3) s.data with
  | some (v, rest) => if (skipWs rest).isEmpty then some v else none
  | none => none

/-- Python `x == "type"` for a list element during `"type" in data` on a
decoded JSON list. -/
def jIsTypeStr : JValue → Bool
  | .str s => s = "type"
  | _ => false

/-- The record broadcast for a line that is not JSON
(`server.py` lines 165-169). -/
def logRecord (now : ℚ) (raw : String) : Dict :=
  [("type", .str "log"), ("message", .str raw), ("timestamp", .num now)]

/-- `process_message` (`server.py` lines 148-169) on a text message:
strip, discard if blank, else try `json.loads`; on success default the
`type` key to `"sensor"` and `setdefault` the `received_at` stamp, and
broadcast the dict; on `JSONDecodeError` broadcast a log record instead.
The result is the list of records handed to `broadcast_to_browsers`.
`Except.error` models an exception escaping `process_message`: only
`json.JSONDecodeError` is caught, so when the line parses as a
non-object JSON value the subsequent dict operations raise an uncaught
`TypeError` (membership test or item assignment on a non-dict) or
`AttributeError` (`setdefault` on a `str` or `list`). -/
def processMessage (now : ℚ) (raw : String) : Except String (List Dict) :=
  let stripped := pyStrip raw
  if stripped = "" then .ok []
  else
    match jsonParse stripped with
    | some (.obj d) =>
      let d1 := if ¬ dContains d "type" then dSet d "type" (.str "sensor") else d
      let d2 := dSetdefault d1 "received_at" (.num now)
      .ok [d2]
    | some (.str s) =>
      if pyIn "type" s then .error "AttributeError" else .error "TypeError"
    | some (.arr xs) =>
      if xs.any jIsTypeStr then .error "AttributeError" else .error "TypeError"
    | some _ => .error "TypeError"
    | none => .ok [logRecord now stripped]

/-- `process_message` on a bytes message (`server.py` line 150): decode
with replacement, then proceed as for text. -/
def processMessageBytes (now : ℚ) (bs : List ℕ) : Except String (List Dict) :=
  processMessage now (String.mk (decodeUtf8Replace bs))

/-- Hexadecimal digit character. -/
def hexDigit (n : ℕ) : Char :=
  if n < 10 then Char.ofNat (48 + n) else Char.ofNat (87 + n)

/-- One character of a JSON-encoded string (`json.dumps` with
`ensure_ascii=False`): escape the quote, the backslash and control
characters, pass everything else through. -/
def escapeChar (c : Char) : String :=
  if c = '"' then "\\\""
  else if c = '\\' then "\\\\"
  else if c = '\n' then "\\n"
  else if c = '\r' then "\\r"
  else if c = '\t' then "\\t"
  else if c.toNat < 32 then
    "\\u00" ++ String.mk [hexDigit (c.toNat / 16), hexDigit (c.toNat % 16)]
  else String.singleton c

/-- JSON encoding of a string literal. -/
def encStr (s : String) : String :=
  "\"" ++ String.join (s.data.map escapeChar) ++ "\""

/-- Rendering of a JSON number.  Python prints ints and floats in
decimal; the embedding renders the exact rational (an integer, or
`num/den`), which is likewise one fixed rendering per value — all that
the broadcast claims depend on. -/
def renderQ (q : ℚ) : String :=
  if q.den = 1 then toString q.num else toString q.num ++ "/" ++ toString q.den

mutual

/-- `json.dumps(·, ensure_ascii=False)`: serialize a JSON value to wire
text, with Python's default `", "` / `": "` separators. -/
def jsonEncode : JValue → String
  | .null => "null"
  | .bool true => "true"
  | .bool false => "false"
  | .num q => renderQ q
  | .nan => "NaN"
  | .inf => "Infinity"
  | .neginf => "-Infinity"
  | .str s => encStr s
  | .arr xs => "[" ++ jsonEncodeList xs ++ "]"
  | .obj fs => String.singleton lbrace ++ jsonEncodeFields fs ++ String.singleton rbrace

/-- Serialize array elements. -/
def jsonEncodeList : List JValue → String
  | [] => ""
  | [v] => jsonEncode v
  | v :: w :: rest => jsonEncode v ++ ", " ++ jsonEncodeList (w :: rest)

/-- Serialize object members. -/
def jsonEncodeFields : List (String × JValue) → String
  | [] => ""
  | [(k, v)] => encStr k ++ ": " ++ jsonEncode v
  | (k, v) :: f :: rest => encStr k ++ ": " ++ jsonEncode v ++ ", " ++ jsonEncodeFields (f :: rest)

end

/-- Result of one `broadcast_to_browsers` call: every attempted send
(recipient paired with the wire text passed to `client.send`), and the
membership set after the trailing `browser_clients -= disconnected`. -/
structure BroadcastResult where
  attempts : List (ℕ × String)
  remaining : List ℕ

/-- The `for client in browser_clients` loop (`server.py` lines 68-72):
attempt every client with the one serialized message, collecting the
clients whose send raised into `disconnected`. -/
def broadcastLoop (sendOk : ℕ → Bool) (message : String) :
    List ℕ → List (ℕ × String) × List ℕ
  | [] => ([], [])
  | c :: rest =>
    let r := broadcastLoop sendOk message rest
    ((c, message) :: r.1, if sendOk c then r.2 else c :: r.2)

/-- `broadcast_to_browsers` (`server.py` lines 62-73).  Connections are
modelled as naturals; `sendOk c = false` means `client.send` raises for
`c` (peer gone / write error).  On an empty registry the function
returns before serializing.  Otherwise the record is serialized once,
every registered client is attempted with that one message, and the
failed recipients are removed only after the loop. -/
def broadcastToBrowsers (clients : List ℕ) (sendOk : ℕ → Bool) (data : Dict) :
    BroadcastResult :=
  if clients.isEmpty then ⟨[], clients⟩
  else
    let message := jsonEncode (.obj data)
    let r := broadcastLoop sendOk message clients
    ⟨r.1, clients.filter (fun c => !(r.2.contains c))⟩

/-- Connection role assigned by the first-message classification in
`ws_handler`: `device` means added to `device_clients` (the ESP32 /
producer set), `browser` means added to `browser_clients` (the
viewer/consumer set). -/
inductive Role where
  | device
  | browser
  deriving DecidableEq

/-- Observable outcome of classifying one connection from its first
message: the role assigned (none when the handler errors before adding
the socket to either set), the acknowledgement record sent back to this
socket, the records broadcast to the browsers as a side effect, and any
exception escaping to `ws_handler`'s outer `except` clause. -/
structure ClassOut where
  role : Option Role
  ack : Option Dict
  broadcasts : List Dict
  err : Option String

/-- The `connected` acknowledgement record (`server.py` lines 108-112). -/
def connectedRecord (now : ℚ) : Dict :=
  [("type", .str "connected"),
   ("message", .str "SAMDEMO ダッシュボードに接続しました"),
   ("timestamp", .num now)]

/-- The `device_connected` notification record (`server.py` lines 99-103). -/
def deviceConnectedRecord (now : ℚ) (dev : JValue) : Dict :=
  [("type", .str "device_connected"), ("device", dev), ("timestamp", .num now)]

/-- Python `data.get("type") == "hello"`. -/
def isHelloStr : Option JValue → Bool
  | some (.str s) => s = "hello"
  | _ => false

/-- The hello-handshake test `data.get("type") == "hello" and "device"
in data` (`server.py` line 93). -/
def isHelloObj (d : Dict) : Bool :=
  isHelloStr (dGet d "type") && dContains d "device"

/-- The first-message classification section of `ws_handler`
(`server.py` lines 90-120), given that a first message arrived within
the 2-second bound.  `json.loads` success with a hello object registers
the device and broadcasts `device_connected`; success with any other
object registers a browser, sends the `connected` acknowledgement and
feeds the message through `process_message`; success with a non-object
raises `AttributeError` at `data.get` before either set is touched;
`json.JSONDecodeError` registers the socket as a raw device and feeds
the message through `process_message` without an acknowledgement. -/
def wsClassifyFirst (now : ℚ) (firstMsg : String) : ClassOut :=
  match jsonParse firstMsg with
  | some (.obj d) =>
    if isHelloObj d then
      { role := some .device, ack := none,
        broadcasts := [deviceConnectedRecord now ((dGet d "device").getD .null)],
        err := none }
    else
      match processMessage now firstMsg with
      | .ok bs =>
        { role := some .browser, ack := some (connectedRecord now),
          broadcasts := bs, err := none }
      | .error e =>
        { role := some .browser, ack := some (connectedRecord now),
          broadcasts := [], err := some e }
  | some _ =>
    { role := none, ack := none, broadcasts := [], err := some "AttributeError" }
  | none =>
    match processMessage now firstMsg with
    | .ok bs =>
      { role := some .device, ack := none, broadcasts := bs, err := none }
    | .error e =>
      { role := some .device, ack := none, broadcasts := [], err := some e }

/-- One observable event of the serial read loop: `recv bs` is a
`ser.readline()` result (empty for a read timeout), `fault` is a
`serial.SerialException` raised by the read. -/
inductive SEvent where
  | recv (bs : List ℕ)
  | fault (msg : String)

/-- Environment of one `serial_reader` run: whether pyserial imported,
whether `serial.Serial(port, baud, ...)` raises, and the sequence of
read results the port would deliver. -/
structure SerialCfg where
  available : Bool
  openErr : Option String
  events : List SEvent

/-- How a `serial_reader` run ends: switched to the demo generator,
died on an exception that is not a `SerialException` (nothing catches
it), or ran out of the supplied events (still looping). -/
inductive SerialEnd where
  | demoFallback
  | crashed (e : String)
  | exhausted
  deriving DecidableEq

/-- Observable outcome of a `serial_reader` run: the records handed to
the broadcaster, how the run ended, and how many times the demo
generator was started. -/
structure SerialOut where
  broadcasts : List Dict
  ending : SerialEnd
  fallbacks : ℕ

/-- The `while True` read loop of `serial_reader` (`server.py` lines
191-197) together with its `except serial.SerialException` handler
(lines 199-202): a timeout (`not raw`) or blank line continues the
loop, a `SerialException` switches to the demo generator once, and an
exception escaping `process_message` kills the task (it is not a
`SerialException`, so nothing catches it and no fallback happens). -/
def serialLoop (now : ℚ) : List SEvent → SerialOut
  | [] => ⟨[], .exhausted, 0⟩
  | .fault _ :: _ => ⟨[], .demoFallback, 1⟩
  | .recv bs :: rest =>
    if bs.isEmpty then serialLoop now rest
    else
      let line := pyStrip (String.mk (decodeUtf8Replace bs))
      if line = "" then serialLoop now rest
      else
        match processMessage now line with
        | .ok out =>
          let r := serialLoop now rest
          ⟨out ++ r.broadcasts, r.ending, r.fallbacks⟩
        | .error e => ⟨[], .crashed e, 0⟩

/-- `serial_reader` (`server.py` lines 174-202): missing pyserial or an
open failure starts the demo generator; otherwise the read loop runs. -/
def serialReader (now : ℚ) (cfg : SerialCfg) : SerialOut :=
  if ¬ cfg.available then ⟨[], .demoFallback, 1⟩
  else
    match cfg.openErr with
    | some _ => ⟨[], .demoFallback, 1⟩
    | none => serialLoop now cfg.events

/-- Oracles for the demo generator's math: `sinFn` / `cosFn` stand for
`math.sin` / `math.cos`, and `gauss mu sigma i` is the value of the
`i`-th sequential `random.gauss(mu, sigma)` draw. -/
structure DemoOracle where
  sinFn : ℚ → ℚ
  cosFn : ℚ → ℚ
  gauss : ℚ → ℚ → ℕ → ℚ

/-- Round half to even, as Python's built-in `round` does. -/
def roundHalfEven (x : ℚ) : ℤ :=
  let f := ⌊x⌋
  let r := x - f
  if r < 1 / 2 then f
  else if 1 / 2 < r then f + 1
  else if f % 2 = 0 then f else f + 1

/-- Python `round(x, 1)`: round to one decimal place, half to even. -/
def pyRound1 (x : ℚ) : ℚ :=
  (roundHalfEven (x * 10) : ℚ) / 10

/-- One iteration of `demo_data_generator`'s loop body (`server.py`
lines 212-224) at step counter `t`: the synthetic sensor record.  The
three `random.gauss` draws of iteration `t` are draws `3t`, `3t+1`,
`3t+2` of the stream. -/
def demoRecord (o : DemoOracle) (now : ℚ) (t : ℕ) : Dict :=
  let temp := pyRound1 (25.0 + 5.0 * o.sinFn ((t : ℚ) * 0.1) + o.gauss 0 0.3 (3 * t))
  let humidity := pyRound1 (60.0 + 10.0 * o.cosFn ((t : ℚ) * 0.07) + o.gauss 0 0.5 (3 * t + 1))
  let pressure := pyRound1 (1013.25 + 2.0 * o.sinFn ((t : ℚ) * 0.03) + o.gauss 0 0.1 (3 * t + 2))
  [("type", .str "sensor"), ("temp", .num temp), ("humidity", .num humidity),
   ("pressure", .num pressure), ("ts", .num (⌊now⌋ : ℚ)),
   ("received_at", .num now), ("demo", .bool true)]

/-- The `while True` loop of `demo_data_generator` with step counter
`t`, observed for a given number of iterations: one record per
iteration, `t += 1` between iterations, no fault path. -/
def demoLoop (o : DemoOracle) (now : ℚ) : ℕ → ℕ → List Dict
  | _, 0 => []
  | t, n + 1 => demoRecord o now t :: demoLoop o now (t + 1) n

/-- `demo_data_generator` (`server.py` lines 207-232): the step counter
starts at 0; the first `n` iterations produce these records. -/
def demoDataGenerator (o : DemoOracle) (now : ℚ) (n : ℕ) : List Dict :=
  demoLoop o now 0 n

/-- State of the consumer registry: the `browser_clients` membership
(modelled as a list to make freedom from duplicates a provable
invariant of `set.add` / `set.discard`, not a typing assumption), and
the set of connections whose closure the handler has already observed
(via the `finally` clause, or a failed send during broadcast). -/
structure RegState where
  browsers : List ℕ
  closed : Finset ℕ

/-- The registry operations of `server.py`: `register` is
`browser_clients.add(websocket)` after classification (line 106/124),
`disconnect` is the `finally` clause's `browser_clients.discard(...)`
(line 144) for a connection now known closed, `sendFail F` is one
broadcast pass whose sends to the recipients in `F` raised, ending in
`browser_clients -= disconnected` (line 73). -/
inductive RegOp where
  | register (c : ℕ)
  | disconnect (c : ℕ)
  | sendFail (failed : Finset ℕ)

/-- One registry operation. -/
def regStep : RegState → RegOp → RegState
  | s, .register c =>
    { s with browsers := if c ∈ s.browsers then s.browsers else s.browsers ++ [c] }
  | s, .disconnect c => ⟨s.browsers.erase c, insert c s.closed⟩
  | s, .sendFail F => ⟨s.browsers.filter (fun c => decide (c ∉ F)), s.closed ∪ F⟩

/-- Run a sequence of registry operations. -/
def regRun : RegState → List RegOp → RegState
  | s, [] => s
  | s, op :: rest => regRun (regStep s op) rest

/-- Well-formedness of an operation sequence against the program: a
handler only registers its socket while the connection is open, i.e.
never after its closure was observed (registration happens in
`ws_handler` strictly before the same handler's `finally` clause); a
send only fails for a peer that is gone, so `sendFail` closes its
recipients. -/
def regWF : RegState → List RegOp → Bool
  | _, [] => true
  | s, .register c :: rest =>
    if c ∈ s.closed then false else regWF (regStep s (.register c)) rest
  | s, op :: rest => regWF (regStep s op) rest

/-- The registry invariant of the spec: no duplicate entries, and no
entry whose underlying connection is (observed) closed. -/
def regInv (s : RegState) : Prop :=
  s.browsers.Nodup ∧ ∀ c ∈ s.browsers, c ∉ s.closed

/-- Is a serial read event harmless for the loop: a fault is not, and a
received line is harmless when it is skipped (timeout or blank) or
`process_message` returns normally on it. -/
def cleanEvent (now : ℚ) : SEvent → Bool
  | .fault _ => false
  | .recv bs =>
    if bs.isEmpty then true
    else
      let line := pyStrip (String.mk (decodeUtf8Replace bs))
      if line = "" then true
      else (processMessage now line).isOk

/-- All events in a list are harmless. -/
def cleanEvents (now : ℚ) (evs : List SEvent) : Bool :=
  evs.all (cleanEvent now)

/-! ## Helper lemmas -/

/-- `dSet` with one key does not disturb lookups of another. -/
theorem dGet_dSet_ne (d : Dict) (k k' : String) (v : JValue) (h : k ≠ k') :
    dGet (dSet d k v) k' = dGet d k' := by
  induction d with
  | nil => simp [dSet, dGet, h]
  | cons hd tl ih =>
    obtain ⟨kh, vh⟩ := hd
    by_cases hk : kh = k
    · subst hk
      simp [dSet, dGet, h]
    · simp [dSet, dGet, hk]
      by_cases hk' : kh = k'
      · simp [hk']
      · simp [hk', ih]

/-- Lookup walks past a block without the key. -/
theorem dGet_append_none (a b : Dict) (k : String) (h : dGet a k = none) :
    dGet (a ++ b) k = dGet b k := by
  induction a with
  | nil => simp
  | cons hd tl ih =>
    obtain ⟨kh, vh⟩ := hd
    by_cases hk : kh = k
    · simp [dGet, hk] at h
    · simp [dGet, hk] at h ⊢
      exact ih h

/-- The broadcast loop attempts every client with the one message and
collects exactly the failing clients. -/
theorem broadcastLoop_spec (sendOk : ℕ → Bool) (m : String) (cl : List ℕ) :
    broadcastLoop sendOk m cl =
      (cl.map (fun c => (c, m)), cl.filter (fun c => !sendOk c)) := by
  induction cl with
  | nil => rfl
  | cons c rest ih =>
    cases hs : sendOk c <;>
      simp [broadcastLoop, ih, List.filter_cons, hs]

/-- `demoLoop` produces one record per iteration. -/
theorem demoLoop_length (o : DemoOracle) (now : ℚ) (t n : ℕ) :
    (demoLoop o now t n).length = n := by
  induction n generalizing t with
  | zero => rfl
  | succ n ih => simp [demoLoop, ih]

/-- The `k`-th record of `demoLoop` starting at counter `t` is the
record for step `t + k`. -/
theorem demoLoop_getD (o : DemoOracle) (now : ℚ) :
    ∀ n t k, k < n → (demoLoop o now t n).getD k [] = demoRecord o now (t + k) := by
  intro n
  induction n with
  | zero => intro t k hk; omega
  | succ n ih =>
    intro t k hk
    cases k with
    | zero => simp [demoLoop]
    | succ k =>
      have hstep : demoLoop o now t (n + 1)
          = demoRecord o now t :: demoLoop o now (t + 1) n := rfl
      rw [hstep, List.getD_cons_succ, ih (t + 1) k (by omega)]
      congr 1
      omega

/-! ## C3: broadcast fan-out -/

/-- C3. For every broadcast of a record to the registered consumers,
every registered client is attempted with the same once-serialized wire
text (so a send failure at one recipient does not abort the others),
and the membership that remains afterwards is the original list minus
exactly the failed recipients, computed after the full pass. -/
theorem c3_broadcast_fanout (clients : List ℕ) (sendOk : ℕ → Bool) (data : Dict) :
    (broadcastToBrowsers clients sendOk data).attempts
        = clients.map (fun c => (c, jsonEncode (.obj data)))
    ∧ (broadcastToBrowsers clients sendOk data).remaining
        = clients.filter (fun c => sendOk c) := by
  cases clients with
  | nil => exact ⟨rfl, rfl⟩
  | cons c rest =>
    have h1 : (broadcastToBrowsers (c :: rest) sendOk data).attempts
        = (broadcastLoop sendOk (jsonEncode (.obj data)) (c :: rest)).1 := rfl
    have h2 : (broadcastToBrowsers (c :: rest) sendOk data).remaining
        = (c :: rest).filter
            (fun x => !((broadcastLoop sendOk (jsonEncode (.obj data)) (c :: rest)).2.contains x)) :=
      rfl
    rw [h1, h2, broadcastLoop_spec]
    refine ⟨rfl, ?_⟩
    apply List.filter_congr
    intro a ha
    cases hs : sendOk a
    · have hmem : a ∈ (c :: rest).filter (fun x => !sendOk x) :=
        List.mem_filter.mpr ⟨ha, by simp [hs]⟩
      have hcont : ((c :: rest).filter (fun x => !sendOk x)).contains a = true := by
        simpa [List.contains] using List.elem_iff.mpr hmem
      rw [hcont]
      rfl
    · have hnmem : a ∉ (c :: rest).filter (fun x => !sendOk x) := by
        intro hmem
        have := (List.mem_filter.mp hmem).2
        simp [hs] at this
      have hcont : ((c :: rest).filter (fun x => !sendOk x)).contains a = false := by
        cases he : ((c :: rest).filter (fun x => !sendOk x)).contains a
        · rfl
        · exact absurd (List.elem_iff.mp he) hnmem
      rw [hcont]
      rfl

/-! ## C7: decode on a non-empty line -/

/-- C7. The claim says `decode` never propagates a fault on a non-empty
line.  The code violates it: the non-blank line `"123"` parses as a
JSON number, so `"type" not in data` raises an uncaught `TypeError`
(only `json.JSONDecodeError` is caught), which escapes `process_message`
and kills a serial reader task. -/
theorem c7_decode_raises_on_numeric_line :
    processMessage 0 "123" = .error "TypeError" ∧ pyStrip "123" = "123" :=
  ⟨rfl, rfl⟩

/-! ## C8: blank lines -/

/-- C8. An empty or whitespace-only line yields no record and no
broadcast: `process_message` returns before parsing or broadcasting. -/
theorem c8_blank_line_yields_nothing (now : ℚ) (s : String)
    (h : pyStrip s = "") : processMessage now s = .ok [] := by
  unfold processMessage
  simp [h]

/-- Witness for C8 at the whitespace-only line `" \t\r\n "`. -/
theorem c8_blank_line_yields_nothing_witness :
    processMessage 0 " \t\r\n " = .ok [] :=
  c8_blank_line_yields_nothing 0 " \t\r\n " rfl

/-! ## C10: invalid UTF-8 bytes -/

/-- C10. The UTF-8 decoding step itself replaces invalid bytes with
U+FFFD and never raises, as the claim says; but the claim's "ingested
rather than faulting" tail fails on the code: the byte line
`0x22 0x61 0xFF 0x62 0x22` decodes (with replacement) to a JSON string
literal, which `process_message` then crashes on with an uncaught
`TypeError` — the same slip as C7, reached from the bytes path. -/
theorem c10_invalid_utf8_replaced_but_faults :
    String.mk (decodeUtf8Replace [34, 97, 255, 98, 34]) = "\"a�b\""
    ∧ replChar ∈ decodeUtf8Replace [34, 97, 255, 98, 34]
    ∧ processMessageBytes 0 [34, 97, 255, 98, 34] = .error "TypeError" :=
  ⟨rfl, by decide, rfl⟩

/-! ## C1: first message that is not a recognized hello -/

/-- C1 counterexample.  The claim says every first message that is not
a recognized hello — non-parseable, or parseable without the hello
marker — classifies the connection Consumer and is answered with the
`Connected` acknowledgement.  On the code this fails twice: the first
message `"hi"` (not JSON) puts the socket in `device_clients` — the
Producer side — with no acknowledgement; and the first message
`"[1, 2]"` (parseable, no hello marker) raises `AttributeError` at
`data.get` before either set is touched, so no role is assigned and no
acknowledgement is sent. -/
theorem c1_counterexample :
    (wsClassifyFirst 0 "hi").role = some Role.device
    ∧ (wsClassifyFirst 0 "hi").ack = none
    ∧ (wsClassifyFirst 0 "[1, 2]").role = none
    ∧ (wsClassifyFirst 0 "[1, 2]").ack = none
    ∧ (wsClassifyFirst 0 "[1, 2]").err = some "AttributeError" :=
  ⟨rfl, rfl, rfl, rfl, rfl⟩

/-- C1, amended.  A first message that parses as a JSON object without
the hello marker classifies the connection Consumer, sends the
`Connected` acknowledgement, and ingests the message itself through
`process_message`, broadcasting whatever the codec yields; a
non-parseable first message instead classifies the connection as a raw
device (Producer side) and ingests the message with no
acknowledgement; and a first message parsing as non-object JSON errors
out of the handler before any classification, with no acknowledgement
and no broadcast. -/
theorem c1_first_message_not_hello (now : ℚ) (msg : String) (d : Dict)
    (hcase : jsonParse msg = none
      ∨ (jsonParse msg = some (.obj d) ∧ isHelloObj d = false)
      ∨ (∃ v, jsonParse msg = some v ∧ ∀ d', v ≠ JValue.obj d')) :
    (jsonParse msg = none →
      (wsClassifyFirst now msg).role = some Role.device
      ∧ (wsClassifyFirst now msg).ack = none
      ∧ ∀ bs, processMessage now msg = .ok bs →
          (wsClassifyFirst now msg).broadcasts = bs)
    ∧ (jsonParse msg = some (.obj d) → isHelloObj d = false →
      (wsClassifyFirst now msg).role = some Role.browser
      ∧ (wsClassifyFirst now msg).ack = some (connectedRecord now)
      ∧ ∀ bs, processMessage now msg = .ok bs →
          (wsClassifyFirst now msg).broadcasts = bs)
    ∧ (∀ w, jsonParse msg = some w → (∀ d', w ≠ JValue.obj d') →
      wsClassifyFirst now msg
        = { role := none, ack := none, broadcasts := [],
            err := some "AttributeError" }) := by
  rcases hcase with hnone | ⟨hobj, hhello⟩ | ⟨v, hv, hnobj⟩
  · refine ⟨fun _ => ⟨?_, ?_, fun bs hok => ?_⟩, fun hobj _ => ?_, fun w hw _ => ?_⟩
    · unfold wsClassifyFirst
      rw [hnone]
      cases processMessage now msg <;> rfl
    · unfold wsClassifyFirst
      rw [hnone]
      cases processMessage now msg <;> rfl
    · unfold wsClassifyFirst
      rw [hnone, hok]
    · rw [hnone] at hobj
      exact absurd hobj (by simp)
    · rw [hnone] at hw
      exact absurd hw (by simp)
  · refine ⟨fun hnone => ?_, fun _ _ => ⟨?_, ?_, fun bs hok => ?_⟩, fun w hw hnobj => ?_⟩
    · rw [hnone] at hobj
      exact absurd hobj (by simp)
    · unfold wsClassifyFirst
      rw [hobj]
      simp only [hhello, Bool.false_eq_true, if_false]
      cases processMessage now msg <;> rfl
    · unfold wsClassifyFirst
      rw [hobj]
      simp only [hhello, Bool.false_eq_true, if_false]
      cases processMessage now msg <;> rfl
    · unfold wsClassifyFirst
      rw [hobj]
      simp only [hhello, Bool.false_eq_true, if_false]
      rw [hok]
    · rw [hobj] at hw
      have hwd : w = JValue.obj d := (Option.some.inj hw).symm
      exact absurd hwd (hnobj d)
  · refine ⟨fun hnone => ?_, fun hobj _ => ?_, fun w hw hnobj' => ?_⟩
    · rw [hnone] at hv
      exact Option.noConfusion hv
    · rw [hobj] at hv
      have hvd : v = JValue.obj d := (Option.some.inj hv).symm
      exact absurd hvd (hnobj d)
    · have hwv : w = v := by
        rw [hv] at hw
        exact (Option.some.inj hw).symm
      subst hwv
      unfold wsClassifyFirst
      rw [hv]
      cases w with
      | obj fields => exact absurd rfl (hnobj' fields)
      | null => rfl
      | bool b => rfl
      | num q => rfl
      | nan => rfl
      | inf => rfl
      | neginf => rfl
      | str s => rfl
      | arr xs => rfl

/-- Witness for C1 at the non-parseable first message `"hi"`. -/
theorem c1_first_message_not_hello_witness :
    (jsonParse "hi" = none →
      (wsClassifyFirst 0 "hi").role = some Role.device
      ∧ (wsClassifyFirst 0 "hi").ack = none
      ∧ ∀ bs, processMessage 0 "hi" = .ok bs →
          (wsClassifyFirst 0 "hi").broadcasts = bs)
    ∧ (jsonParse "hi" = some (.obj []) → isHelloObj [] = false →
      (wsClassifyFirst 0 "hi").role = some Role.browser
      ∧ (wsClassifyFirst 0 "hi").ack = some (connectedRecord 0)
      ∧ ∀ bs, processMessage 0 "hi" = .ok bs →
          (wsClassifyFirst 0 "hi").broadcasts = bs)
    ∧ (∀ w, jsonParse "hi" = some w → (∀ d', w ≠ JValue.obj d') →
      wsClassifyFirst 0 "hi"
        = { role := none, ack := none, broadcasts := [],
            err := some "AttributeError" }) :=
  c1_first_message_not_hello 0 "hi" [] (Or.inl rfl)

/-! ## C2: the received_at stamp -/

/-- C2 counterexample.  The claim says the `received_at` stamp is
assigned by the relay and never taken from the source.  The code uses
`setdefault`, so at ingestion time 999 the line carrying
`received_at: 5` is broadcast with the source-supplied 5, not 999. -/
theorem c2_counterexample :
    processMessage 999 "\x7b\"received_at\": 5\x7d"
      = .ok [[("received_at", .num 5), ("type", .str "sensor")]]
    ∧ (5 : ℚ) ≠ 999 :=
  ⟨rfl, by norm_num⟩

/-- C2, amended.  For a line decoding to a structured record, the relay
stamps `received_at` with its own ingestion time only when the source
record lacks that field; a source-supplied `received_at` is preserved
verbatim (`setdefault` semantics). -/
theorem c2_received_at_setdefault (now : ℚ) (s : String) (d : Dict)
    (hobj : jsonParse (pyStrip s) = some (.obj d)) :
    ∃ rec, processMessage now s = .ok [rec]
      ∧ (dContains d "received_at" = false →
          dGet rec "received_at" = some (.num now))
      ∧ (∀ v, dGet d "received_at" = some v →
          dGet rec "received_at" = some v) := by
  have hne : pyStrip s ≠ "" := by
    intro h
    rw [h] at hobj
    have : jsonParse "" = none := rfl
    rw [this] at hobj
    exact Option.noConfusion hobj
  simp only [processMessage]
  rw [if_neg hne, hobj]
  have hA : dGet (if ¬ dContains d "type" then dSet d "type" (.str "sensor") else d)
      "received_at" = dGet d "received_at" := by
    by_cases ht : dContains d "type"
    · simp [ht]
    · simp [ht, dGet_dSet_ne d "type" "received_at" (.str "sensor") (by decide)]
  refine ⟨dSetdefault (if ¬ dContains d "type" then dSet d "type" (.str "sensor") else d)
      "received_at" (.num now), rfl, ?_, ?_⟩
  · intro hnc
    have hnone : dGet d "received_at" = none := by
      cases ho : dGet d "received_at" with
      | none => rfl
      | some v => simp [dContains, ho] at hnc
    have hnone1 : dGet (if ¬ dContains d "type" then dSet d "type" (.str "sensor") else d)
        "received_at" = none := hA.trans hnone
    have hcond : dContains (if ¬ dContains d "type" then dSet d "type" (.str "sensor") else d)
        "received_at" = false :=
      (congrArg Option.isSome hnone1).trans rfl
    unfold dSetdefault
    rw [hcond]
    simp only [Bool.false_eq_true, if_false]
    rw [dGet_append_none _ _ _ hnone1]
    simp [dGet]
  · intro v hv
    have hsome : dGet (if ¬ dContains d "type" then dSet d "type" (.str "sensor") else d)
        "received_at" = some v := hA.trans hv
    have hcond : dContains (if ¬ dContains d "type" then dSet d "type" (.str "sensor") else d)
        "received_at" = true :=
      (congrArg Option.isSome hsome).trans rfl
    unfold dSetdefault
    rw [hcond]
    rw [if_pos rfl]
    exact hsome

/-- Witness for C2 at ingestion time 7 and the structured line with
keys `a` only (no source `received_at`): the broadcast record is
stamped with 7. -/
theorem c2_received_at_setdefault_witness :
    ∃ rec, processMessage 7 "\x7b\"a\": 1\x7d" = .ok [rec]
      ∧ (dContains [("a", JValue.num 1)] "received_at" = false →
          dGet rec "received_at" = some (.num 7))
      ∧ (∀ v, dGet [("a", JValue.num 1)] "received_at" = some v →
          dGet rec "received_at" = some v) :=
  c2_received_at_setdefault 7 "\x7b\"a\": 1\x7d" [("a", JValue.num 1)] rfl

/-! ## C5: hello handshake -/

/-- C5. A first message parsing as a structured record with
`type = "hello"` and a `device` field classifies the connection as
Producer (the device set) and triggers exactly one `device_connected`
broadcast carrying that device identifier; no acknowledgement and no
other broadcast is produced. -/
theorem c5_hello_classified_producer (now : ℚ) (msg : String) (d : Dict)
    (dev : JValue) (h1 : jsonParse msg = some (.obj d))
    (h2 : dGet d "type" = some (.str "hello"))
    (h3 : dGet d "device" = some dev) :
    wsClassifyFirst now msg =
      { role := some Role.device, ack := none,
        broadcasts := [deviceConnectedRecord now dev], err := none } := by
  have hh : isHelloObj d = true := by
    simp [isHelloObj, isHelloStr, h2, dContains, h3]
  unfold wsClassifyFirst
  rw [h1]
  simp only [hh, if_true]
  rw [h3]
  rfl

/-- Witness for C5 at the canonical hello message. -/
theorem c5_hello_classified_producer_witness :
    wsClassifyFirst 7 "\x7b\"type\":\"hello\",\"device\":\"X\"\x7d" =
      { role := some Role.device, ack := none,
        broadcasts := [deviceConnectedRecord 7 (.str "X")], err := none } :=
  c5_hello_classified_producer 7 "\x7b\"type\":\"hello\",\"device\":\"X\"\x7d"
    [("type", .str "hello"), ("device", .str "X")] (.str "X") rfl rfl rfl

/-! ## C4: registry invariant -/

/-- Every well-formed operation sequence preserves the registry
invariant. -/
theorem regRun_inv (ops : List RegOp) :
    ∀ s, regInv s → regWF s ops = true → regInv (regRun s ops) := by
  induction ops with
  | nil => exact fun s hs _ => hs
  | cons op rest ih =>
    intro s hs hwf
    obtain ⟨hnd, hmem⟩ := hs
    show regInv (regRun (regStep s op) rest)
    cases op with
    | register c =>
      by_cases hc : c ∈ s.closed
      · simp [regWF, hc] at hwf
      · have hwf' : regWF (regStep s (.register c)) rest = true := by
          simpa [regWF, hc] using hwf
        refine ih _ ⟨?_, ?_⟩ hwf'
        · simp only [regStep]
          by_cases hcb : c ∈ s.browsers
          · simpa [hcb] using hnd
          · simp only [hcb, if_false]
            rw [List.nodup_append]
            exact ⟨hnd, List.nodup_singleton c, by
              intro x hx hxc
              rw [List.mem_singleton] at hxc
              exact hcb (hxc ▸ hx)⟩
        · intro x hx
          simp only [regStep] at hx ⊢
          by_cases hcb : c ∈ s.browsers
          · rw [if_pos hcb] at hx
            exact hmem x hx
          · rw [if_neg hcb] at hx
            rcases List.mem_append.mp hx with hxb | hxc
            · exact hmem x hxb
            · rw [List.mem_singleton] at hxc
              exact hxc ▸ hc
    | disconnect c =>
      refine ih _ ⟨?_, ?_⟩ hwf
      · exact List.Nodup.erase c hnd
      · intro x hx
        simp only [regStep] at hx ⊢
        have hx' := (List.Nodup.mem_erase_iff hnd).mp hx
        rw [Finset.mem_insert]
        push_neg
        exact ⟨hx'.1, hmem x hx'.2⟩
    | sendFail F =>
      refine ih _ ⟨?_, ?_⟩ hwf
      · exact List.Nodup.filter _ hnd
      · intro x hx
        simp only [regStep] at hx ⊢
        obtain ⟨hxb, hxf⟩ := List.mem_filter.mp hx
        rw [Finset.mem_union]
        push_neg
        exact ⟨hmem x hxb, of_decide_eq_true hxf⟩

/-- C4.  After any well-formed sequence of register, broadcast and
deregister operations starting from the empty registry, the registry
has no duplicate entries and no entry whose connection closure has been
observed (by the disconnect path or by a failed send); and removal is
idempotent — repeating a disconnect is a no-op. -/
theorem c4_registry_invariant (ops : List RegOp)
    (h : regWF ⟨[], ∅⟩ ops = true) :
    regInv (regRun ⟨[], ∅⟩ ops)
    ∧ ∀ c, regStep (regStep (regRun ⟨[], ∅⟩ ops) (.disconnect c)) (.disconnect c)
        = regStep (regRun ⟨[], ∅⟩ ops) (.disconnect c) := by
  have hinv : regInv (regRun ⟨[], ∅⟩ ops) :=
    regRun_inv ops ⟨[], ∅⟩ ⟨List.nodup_nil, by simp⟩ h
  refine ⟨hinv, fun c => ?_⟩
  obtain ⟨hnd, _⟩ := hinv
  simp only [regStep]
  congr 1
  · apply List.erase_of_not_mem
    intro hc
    exact ((List.Nodup.mem_erase_iff hnd).mp hc).1 rfl
  · exact Finset.insert_idem c _

/-- Witness for C4 on a concrete operation sequence: two registrations,
a broadcast pass failing at client 2, and a disconnect of client 1. -/
theorem c4_registry_invariant_witness :
    regInv (regRun ⟨[], ∅⟩
      [.register 1, .register 2, .sendFail {2}, .disconnect 1])
    ∧ ∀ c, regStep (regStep (regRun ⟨[], ∅⟩
          [.register 1, .register 2, .sendFail {2}, .disconnect 1])
          (.disconnect c)) (.disconnect c)
        = regStep (regRun ⟨[], ∅⟩
            [.register 1, .register 2, .sendFail {2}, .disconnect 1])
            (.disconnect c) :=
  c4_registry_invariant
    [.register 1, .register 2, .sendFail {2}, .disconnect 1] (by decide)

/-! ## C6: serial fault and demo fallback -/

/-- A clean prefix of reads followed by a `SerialException` always
lands in the demo fallback, entered exactly once. -/
theorem serialLoop_fault_fallback (now : ℚ) (e : String) (rest : List SEvent) :
    ∀ pre, cleanEvents now pre = true →
      (serialLoop now (pre ++ SEvent.fault e :: rest)).ending = SerialEnd.demoFallback
      ∧ (serialLoop now (pre ++ SEvent.fault e :: rest)).fallbacks = 1 := by
  intro pre
  induction pre with
  | nil => exact fun _ => ⟨rfl, rfl⟩
  | cons ev pre ih =>
    intro hclean
    have hsplit : cleanEvent now ev = true ∧ cleanEvents now pre = true := by
      simpa [cleanEvents] using hclean
    obtain ⟨hev, hpre⟩ := hsplit
    cases ev with
    | fault m => simp [cleanEvent] at hev
    | recv bs =>
      have hcons : (SEvent.recv bs :: pre) ++ SEvent.fault e :: rest
          = SEvent.recv bs :: (pre ++ SEvent.fault e :: rest) := rfl
      rw [hcons]
      by_cases hbs : bs.isEmpty
      · have hstep : serialLoop now (SEvent.recv bs :: (pre ++ SEvent.fault e :: rest))
            = serialLoop now (pre ++ SEvent.fault e :: rest) := by
          simp [serialLoop, hbs]
        rw [hstep]
        exact ih hpre
      · by_cases hl : pyStrip (String.mk (decodeUtf8Replace bs)) = ""
        · have hstep : serialLoop now (SEvent.recv bs :: (pre ++ SEvent.fault e :: rest))
              = serialLoop now (pre ++ SEvent.fault e :: rest) := by
            simp [serialLoop, hbs, hl]
          rw [hstep]
          exact ih hpre
        · have hok : (processMessage now (pyStrip (String.mk (decodeUtf8Replace bs)))).isOk
              = true := by
            simpa [cleanEvent, hbs, hl] using hev
          cases hpm : processMessage now (pyStrip (String.mk (decodeUtf8Replace bs))) with
          | error err => rw [hpm] at hok; exact Bool.noConfusion hok
          | ok out =>
            have hstep : serialLoop now (SEvent.recv bs :: (pre ++ SEvent.fault e :: rest))
                = ⟨out ++ (serialLoop now (pre ++ SEvent.fault e :: rest)).broadcasts,
                   (serialLoop now (pre ++ SEvent.fault e :: rest)).ending,
                   (serialLoop now (pre ++ SEvent.fault e :: rest)).fallbacks⟩ := by
              simp [serialLoop, hbs, hl, hpm]
            rw [hstep]
            exact ih hpre

/-- C6.  When the serial source hits a terminal fault — the endpoint
cannot be opened (`serial.Serial` raises), or a `SerialException`
interrupts a run of harmless reads — the relay transitions to the demo
generator exactly once and keeps running; and the demo generator itself
has no fault path: it emits exactly one record per iteration,
indefinitely. -/
theorem c6_serial_fault_demo_fallback (now : ℚ) (cfg : SerialCfg)
    (pre : List SEvent) (e : String) (rest : List SEvent)
    (o : DemoOracle) (dnow : ℚ) (n : ℕ)
    (hav : cfg.available = true)
    (hf : cfg.openErr.isSome = true
      ∨ (cfg.openErr = none ∧ cfg.events = pre ++ SEvent.fault e :: rest
          ∧ cleanEvents now pre = true)) :
    (serialReader now cfg).ending = SerialEnd.demoFallback
    ∧ (serialReader now cfg).fallbacks = 1
    ∧ (demoDataGenerator o dnow n).length = n := by
  refine ⟨?_, ?_, demoLoop_length o dnow 0 n⟩ <;>
  · rcases hf with hopen | ⟨hnone, hev, hclean⟩
    · obtain ⟨err, herr⟩ := Option.isSome_iff_exists.mp hopen
      simp [serialReader, hav, herr]
    · have hred : serialReader now cfg = serialLoop now (pre ++ SEvent.fault e :: rest) := by
        simp [serialReader, hav, hnone, hev]
      rw [hred]
      have := serialLoop_fault_fallback now e rest pre hclean
      first
      | exact this.1
      | exact this.2

/-- Witness for C6: an open run delivering one good line, then a
`SerialException`. -/
theorem c6_serial_fault_demo_fallback_witness :
    (serialReader 5 ⟨true, none, [SEvent.recv [104, 105], SEvent.fault "gone",
        SEvent.recv [49]]⟩).ending = SerialEnd.demoFallback
    ∧ (serialReader 5 ⟨true, none, [SEvent.recv [104, 105], SEvent.fault "gone",
        SEvent.recv [49]]⟩).fallbacks = 1
    ∧ (demoDataGenerator ⟨fun x => x, fun x => x, fun _ s i => s * (i : ℚ)⟩ 1 2).length = 2 :=
  c6_serial_fault_demo_fallback 5
    ⟨true, none, [SEvent.recv [104, 105], SEvent.fault "gone", SEvent.recv [49]]⟩
    [SEvent.recv [104, 105]] "gone" [SEvent.recv [49]]
    ⟨fun x => x, fun x => x, fun _ s i => s * (i : ℚ)⟩ 1 2
    rfl (Or.inr ⟨rfl, rfl, by decide⟩)

/-! ## C9: demo generator formulas -/

/-- C9.  At every step `t` of the demo generator (the counter starts at
0 and advances by one per generated record), the emitted record carries
`temp = round1(25.0 + 5.0·sin(0.1·t) + gauss(0, 0.3))`,
`humidity = round1(60.0 + 10.0·cos(0.07·t) + gauss(0, 0.5))` and
`pressure = round1(1013.25 + 2.0·sin(0.03·t) + gauss(0, 0.1))`, each
rounded to one decimal place. -/
theorem c9_demo_formulas (o : DemoOracle) (now : ℚ) (n t : ℕ) (h : t < n) :
    (demoDataGenerator o now n).getD t [] = demoRecord o now t
    ∧ dGet (demoRecord o now t) "temp"
        = some (.num (pyRound1 (25.0 + 5.0 * o.sinFn (0.1 * (t : ℚ))
            + o.gauss 0 0.3 (3 * t))))
    ∧ dGet (demoRecord o now t) "humidity"
        = some (.num (pyRound1 (60.0 + 10.0 * o.cosFn (0.07 * (t : ℚ))
            + o.gauss 0 0.5 (3 * t + 1))))
    ∧ dGet (demoRecord o now t) "pressure"
        = some (.num (pyRound1 (1013.25 + 2.0 * o.sinFn (0.03 * (t : ℚ))
            + o.gauss 0 0.1 (3 * t + 2)))) := by
  refine ⟨?_, ?_, ?_, ?_⟩
  · simpa using demoLoop_getD o now n 0 t h
  · simp [demoRecord, dGet, mul_comm]
  · simp [demoRecord, dGet, mul_comm]
  · simp [demoRecord, dGet, mul_comm]

/-- A concrete oracle instance for the C9 witness. -/
def demoOracleW : DemoOracle :=
  ⟨fun x => x, fun x => x, fun _ s i => s * (i : ℚ)⟩

/-- Witness for C9 at step 2 of a 3-step observation. -/
theorem c9_demo_formulas_witness :
    (demoDataGenerator demoOracleW 1 3).getD 2 [] = demoRecord demoOracleW 1 2
    ∧ dGet (demoRecord demoOracleW 1 2) "temp"
        = some (.num (pyRound1 (25.0 + 5.0 * demoOracleW.sinFn (0.1 * (2 : ℚ))
            + demoOracleW.gauss 0 0.3 (3 * 2))))
    ∧ dGet (demoRecord demoOracleW 1 2) "humidity"
        = some (.num (pyRound1 (60.0 + 10.0 * demoOracleW.cosFn (0.07 * (2 : ℚ))
            + demoOracleW.gauss 0 0.5 (3 * 2 + 1))))
    ∧ dGet (demoRecord demoOracleW 1 2) "pressure"
        = some (.num (pyRound1 (1013.25 + 2.0 * demoOracleW.sinFn (0.03 * (2 : ℚ))
            + demoOracleW.gauss 0 0.1 (3 * 2 + 2)))) :=
  c9_demo_formulas demoOracleW 1 3 2 (by decide)

end SAMDEMO

